import Mathlib

/-!
# zk-Checkin: proof generation and verification (`src/App.js`)

A shallow embedding of the JavaScript functions `generateZKProof`, `verifyProof`,
`handleGenerateProof` and `handleVerify`, together with the fragment of the JavaScript
value semantics they rely on (property reads, truthiness, `&&`, numeric coercion,
`JSON.stringify`, `btoa`).

Modelling conventions.

* JavaScript values are the type `JSVal`.  Numbers are the integers that a double holds
  exactly (millisecond timestamps, ages) together with `NaN`; fractional and infinite
  numbers are outside the model.
* A thrown exception is `Except.error`; a `try` with its `catch` is a `match` on the outcome.
* `Date.now()` is an explicit argument.  `generateZKProof` reads the clock twice, so it
  takes two instants.
* Builtins whose result depends on the host (conversion of a string to a number, the
  locale rendering of a date) are fields of `Host`; `JSON.parse` is not modelled, its
  outcome on the scanned text is the argument `parsed` of `handleVerify`.
* React state is the record `State`; a handler maps a state to the next state.
-/

namespace ZKCheckin

/-! ## Values -/

/-- Numbers: exactly representable integers, or `NaN`. -/
inductive JSNum where
  | int (i : Int)
  | nan
  deriving DecidableEq, Repr

/-- JavaScript values that `JSON.parse`, the form state and the program's own object
literals can produce.  An object is the list of its own properties in insertion order,
with distinct keys. -/
inductive JSVal where
  | undefined
  | null
  | bool (b : Bool)
  | num (n : JSNum)
  | str (s : String)
  | arr (items : List JSVal)
  | obj (fields : List (String × JSVal))
  deriving Repr

/-- Exceptions the modelled code can raise. -/
inductive JSErr where
  | typeError
  | syntaxError
  | invalidCharacter
  deriving DecidableEq, Repr

/-- Host-dependent builtins: `StringToNumber` and `Date.prototype.toLocaleString`
(applied to the primitive the `Date` was constructed from). -/
structure Host where
  stringToNumber : String → JSNum
  dateToLocaleString : JSVal → String

/-- Own-property lookup in a property list. -/
def lookupField (k : String) : List (String × JSVal) → Option JSVal
  | [] => none
  | (k', v) :: rest => if k' = k then some v else lookupField k rest

/-- Whether a property list has an own property `k`. -/
def hasField (k : String) (fs : List (String × JSVal)) : Bool :=
  (lookupField k fs).isSome

/-- The property read `v.k` for the property names the program uses (`commitment`,
`timestamp`, `claims`, `hasValidID`, `ageOver18`, `hasPaymentMethod`, `name`, `age`,
`aadharLast4`, `hasCard`).  None of them exists on a built-in prototype, on an array or on
a primitive wrapper, so only a plain object can hold one; reading from `undefined` or
`null` throws a `TypeError`. -/
def getProp (v : JSVal) (k : String) : Except JSErr JSVal :=
  match v with
  | .undefined => .error .typeError
  | .null => .error .typeError
  | .obj fs => .ok ((lookupField k fs).getD .undefined)
  | _ => .ok .undefined

/-- The abstract operation `ToBoolean`. -/
def truthy : JSVal → Bool
  | .undefined => false
  | .null => false
  | .bool b => b
  | .num (.int i) => i != 0
  | .num .nan => false
  | .str s => s != ""
  | .arr _ => true
  | .obj _ => true

/-! ## Decimal rendering of integers -/

/-- The character of a decimal digit. -/
def digitChar (d : Nat) : Char :=
  Char.ofNat (48 + d)

/-- Decimal digits of `n`, least significant first, with `fuel` bounding the length. -/
def decDigits : Nat → Nat → List Nat
  | 0, _ => []
  | fuel + 1, n => if n = 0 then [] else (n % 10) :: decDigits fuel (n / 10)

/-- Decimal numeral of a natural number. -/
def natToDec (n : Nat) : List Char :=
  if n = 0 then ['0'] else ((decDigits n n).reverse.map digitChar)

/-- `Number.prototype.toString` on an integer below `10^21` in absolute value. -/
def intToString (i : Int) : String :=
  if i < 0 then String.mk ('-' :: natToDec i.natAbs) else String.mk (natToDec i.natAbs)

/-- `ToString` of a number. -/
def numToString : JSNum → String
  | .int i => intToString i
  | .nan => "NaN"

/-! ## Coercions -/

mutual
/-- The abstract operation `ToString`.  A plain object renders as `[object Object]`
through `Object.prototype.toString`, unless it has an own `toString` property: that
property holds data, is not callable, and `OrdinaryToPrimitive` throws.  An array renders
as the comma-joined rendering of its elements. -/
def jsToString : JSVal → Except JSErr String
  | .undefined => .ok "undefined"
  | .null => .ok "null"
  | .bool b => .ok (if b then "true" else "false")
  | .num n => .ok (numToString n)
  | .str s => .ok s
  | .arr items => joinItems items
  | .obj fs => if hasField "toString" fs then .error .typeError else .ok "[object Object]"
/-- The method `Array.prototype.join` with a comma: `undefined` and `null` elements render as
empty. -/
def joinItems : List JSVal → Except JSErr String
  | [] => .ok ""
  | [x] => elemToString x
  | x :: y :: rest =>
    match elemToString x with
    | .error e => .error e
    | .ok s =>
      match joinItems (y :: rest) with
      | .error e => .error e
      | .ok t => .ok (s ++ "," ++ t)
/-- Rendering of one array element inside `join`. -/
def elemToString : JSVal → Except JSErr String
  | .undefined => .ok ""
  | .null => .ok ""
  | .bool b => .ok (if b then "true" else "false")
  | .num n => .ok (numToString n)
  | .str s => .ok s
  | .arr items => joinItems items
  | .obj fs => if hasField "toString" fs then .error .typeError else .ok "[object Object]"
end

/-- The abstract operation `ToPrimitive`: primitives are returned as they are, an object
or array becomes its string rendering (its `valueOf` returns the object itself). -/
def toPrimitive (v : JSVal) : Except JSErr JSVal :=
  match v with
  | .arr _ => (jsToString v).map JSVal.str
  | .obj _ => (jsToString v).map JSVal.str
  | _ => .ok v

/-- The abstract operation `ToNumber`. -/
def toNumber (host : Host) (v : JSVal) : Except JSErr JSNum :=
  match v with
  | .undefined => .ok .nan
  | .null => .ok (.int 0)
  | .bool b => .ok (.int (if b then 1 else 0))
  | .num n => .ok n
  | .str s => .ok (host.stringToNumber s)
  | _ => (jsToString v).map host.stringToNumber

/-- Subtraction of numbers. -/
def numSub : JSNum → JSNum → JSNum
  | .int a, .int b => .int (a - b)
  | _, _ => .nan

/-- The comparison `a > b` of numbers: false when either is `NaN`. -/
def numGt : JSNum → JSNum → Bool
  | .int a, .int b => decide (a > b)
  | _, _ => false

/-- The comparison `a >= b` of numbers: false when either is `NaN`. -/
def numGe : JSNum → JSNum → Bool
  | .int a, .int b => decide (a ≥ b)
  | _, _ => false

/-! ## `JSON.stringify` -/

/-- Hexadecimal digit, lower case. -/
def hexChar (d : Nat) : Char :=
  if d < 10 then Char.ofNat (48 + d) else Char.ofNat (87 + d)

/-- The double quote character. -/
def dquote : Char := Char.ofNat 34

/-- The backslash character. -/
def backslash : Char := Char.ofNat 92

/-- Escaping of one character by `QuoteJSONString`: the quote, the backslash and the
control characters are escaped, every other character is copied. -/
def quoteChar (c : Char) : List Char :=
  if c = dquote then [backslash, dquote]
  else if c = backslash then [backslash, backslash]
  else if c.toNat = 8 then [backslash, 'b']
  else if c.toNat = 9 then [backslash, 't']
  else if c.toNat = 10 then [backslash, 'n']
  else if c.toNat = 12 then [backslash, 'f']
  else if c.toNat = 13 then [backslash, 'r']
  else if c.toNat < 32 then
    [backslash, 'u', '0', '0', hexChar (c.toNat / 16), hexChar (c.toNat % 16)]
  else [c]

/-- The abstract operation `QuoteJSONString`. -/
def quoteString (s : String) : String :=
  String.mk (dquote :: (s.data.flatMap quoteChar ++ [dquote]))

mutual
/-- `JSON.stringify(v)`; `none` is the result `undefined`.  No value of the model is
callable, so an own `toJSON` property is data and is serialized like any other. -/
def jsonStringify : JSVal → Option String
  | .undefined => none
  | .null => some "null"
  | .bool b => some (if b then "true" else "false")
  | .num (.int i) => some (intToString i)
  | .num .nan => some "null"
  | .str s => some (quoteString s)
  | .arr items => some ("[" ++ String.intercalate "," (stringifyItems items) ++ "]")
  | .obj fs => some ("\x7b" ++ String.intercalate "," (stringifyFields fs) ++ "\x7d")
/-- Elements of an array: `undefined` serializes as `null`. -/
def stringifyItems : List JSVal → List String
  | [] => []
  | x :: rest => (jsonStringify x).getD "null" :: stringifyItems rest
/-- Members of an object: a property whose value is `undefined` is left out. -/
def stringifyFields : List (String × JSVal) → List String
  | [] => []
  | (k, v) :: rest =>
    match jsonStringify v with
    | none => stringifyFields rest
    | some s => (quoteString k ++ ":" ++ s) :: stringifyFields rest
end

/-! ## `btoa` -/

/-- The base64 alphabet. -/
def b64Char (n : Nat) : Char :=
  if n < 26 then Char.ofNat (65 + n)
  else if n < 52 then Char.ofNat (71 + n)
  else if n < 62 then Char.ofNat (n - 4)
  else if n = 62 then '+'
  else '/'

/-- Base64 with padding, on a list of octets. -/
def b64Encode : List Nat → List Char
  | [] => []
  | [a] => [b64Char (a / 4), b64Char (a % 4 * 16), '=', '=']
  | [a, b] => [b64Char (a / 4), b64Char (a % 4 * 16 + b / 16), b64Char (b % 16 * 4), '=']
  | a :: b :: c :: rest =>
    b64Char (a / 4) :: b64Char (a % 4 * 16 + b / 16) :: b64Char (b % 16 * 4 + c / 64)
      :: b64Char (c % 64) :: b64Encode rest

/-- Whether every character of a string is a code point up to 255. -/
def latin1 (s : String) : Bool :=
  s.data.all (fun c => decide (c.toNat ≤ 255))

/-- The builtin `btoa`: every character must be a code point up to 255 (a character
outside the Basic Multilingual Plane is two code units above 255), else
`InvalidCharacterError` is thrown. -/
def btoa (s : String) : Except JSErr String :=
  if latin1 s then .ok (String.mk (b64Encode (s.data.map Char.toNat)))
  else .error .invalidCharacter

/-! ## The program -/

/-- The operand `JSON.stringify(userData) + Date.now()`: string concatenation, or
`undefined + number = NaN` when `userData` is `undefined`. -/
def commitmentInput (userData : JSVal) (now : Int) : String :=
  match jsonStringify userData with
  | some s => s ++ intToString now
  | none => "NaN"

/-- The function `generateZKProof(userData)`.  `tCommit` is the clock read inside the
commitment, `tStamp` the clock read for the `timestamp` field. -/
def generateZKProof (host : Host) (userData : JSVal) (tCommit tStamp : Int) :
    Except JSErr JSVal := do
  let commitment ← btoa (commitmentInput userData tCommit)
  let age ← getProp userData "age"
  let ageNum ← toNumber host age
  let hasCard ← getProp userData "hasCard"
  pure (.obj [
    ("commitment", .str commitment),
    ("timestamp", .num (.int tStamp)),
    ("claims", .obj [
      ("hasValidID", .bool true),
      ("ageOver18", .bool (numGe ageNum (.int 18))),
      ("hasPaymentMethod", hasCard),
      ("nationality", .str "VERIFIED")])])

/-- The conjunction `proof.claims.hasValidID && proof.claims.ageOver18 &&
proof.claims.hasPaymentMethod`, evaluated left to right with short circuit. -/
def verifyClaims (proof : JSVal) : Except JSErr JSVal := do
  let claims ← getProp proof "claims"
  let a ← getProp claims "hasValidID"
  if truthy a then
    let b ← getProp claims "ageOver18"
    if truthy b then getProp claims "hasPaymentMethod" else pure b
  else pure a

/-- The function `verifyProof(proof)`, with `currentTime` the value of `Date.now()`. -/
def verifyProof (host : Host) (proof : JSVal) (currentTime : Int) : Except JSErr JSVal :=
  if !truthy proof then pure (.bool false)
  else do
    let commitment ← getProp proof "commitment"
    if !truthy commitment then pure (.bool false)
    else do
      let timestamp ← getProp proof "timestamp"
      let ts ← toNumber host timestamp
      let proofAge := numSub (.int currentTime) ts
      if numGt proofAge (.int (5 * 60 * 1000)) then pure (.bool false)
      else verifyClaims proof

/-- The state cells of `ZKCheckinSystem` that the two handlers read and write, and the
messages shown by `alert`. -/
structure State where
  userData : JSVal
  generatedProof : JSVal
  qrData : JSVal
  verificationResult : JSVal
  alerts : List String

/-- The initial state of the component. -/
def State.init : State where
  userData := .obj [("name", .str ""), ("age", .str ""), ("aadharLast4", .str ""),
    ("hasCard", .bool false)]
  generatedProof := .null
  qrData := .str ""
  verificationResult := .null
  alerts := []

/-- The handler `handleGenerateProof`.  An exception of `generateZKProof` is not caught
and leaves the handler. -/
def handleGenerateProof (host : Host) (st : State) (tCommit tStamp : Int) :
    Except JSErr State := do
  let name ← getProp st.userData "name"
  let filled ←
    if !truthy name then pure false
    else do
      let age ← getProp st.userData "age"
      if !truthy age then pure false
      else do
        let aadharLast4 ← getProp st.userData "aadharLast4"
        pure (truthy aadharLast4)
  if !filled then
    pure { st with alerts := st.alerts ++ ["Please fill all fields"] }
  else do
    let proof ← generateZKProof host st.userData tCommit tStamp
    let qrString := match jsonStringify proof with
      | some s => JSVal.str s
      | none => JSVal.undefined
    pure { st with generatedProof := proof, qrData := qrString }

/-- The body of the `try` block of `handleVerify`: the object passed to
`setVerificationResult`.  `parsed` is the outcome of `JSON.parse(scannedData)`. -/
def verifyAttempt (host : Host) (parsed : Except JSErr JSVal) (now : Int) :
    Except JSErr JSVal := do
  let proof ← parsed
  let isValid ← verifyProof host proof now
  let claims ← getProp proof "claims"
  let timestamp ← getProp proof "timestamp"
  let dateArg ← toPrimitive timestamp
  pure (.obj [
    ("valid", isValid),
    ("claims", claims),
    ("timestamp", .str (host.dateToLocaleString dateArg))])

/-- The object stored by the `catch` branch of `handleVerify`. -/
def errorResult : JSVal :=
  .obj [("valid", .bool false), ("error", .str "Invalid proof format")]

/-- The handler `handleVerify`: any exception of the `try` block is caught. -/
def handleVerify (host : Host) (st : State) (parsed : Except JSErr JSVal) (now : Int) :
    State :=
  match verifyAttempt host parsed now with
  | .ok result => { st with verificationResult := result }
  | .error _ => { st with verificationResult := errorResult }

/-- The test `verificationResult.valid ? .. : ..` of the rendering: the check-in is shown
as successful when `valid` is truthy. -/
def shownValid (st : State) : Bool :=
  match getProp st.verificationResult "valid" with
  | .ok v => truthy v
  | .error _ => false

/-- The guard `verificationResult.valid && verificationResult.claims && (..)` of the
rendering: the panel of verified claims is shown when `valid` and `claims` are both
truthy. -/
def claimsShown (st : State) : Bool :=
  match getProp st.verificationResult "valid" with
  | .error _ => false
  | .ok v =>
    if truthy v then
      match getProp st.verificationResult "claims" with
      | .ok c => truthy c
      | .error _ => false
    else false

/-! ## A typed view of well-formed inputs -/

/-- The attribute record of the form: the object held in `userData`, with a numeric age. -/
structure AttributeRecord where
  name : String
  age : Int
  idFragment : String
  hasPaymentMethod : Bool

/-- The `userData` object of an attribute record. -/
def AttributeRecord.toJS (r : AttributeRecord) : JSVal :=
  .obj [("name", .str r.name), ("age", .num (.int r.age)),
    ("aadharLast4", .str r.idFragment), ("hasCard", .bool r.hasPaymentMethod)]

/-- A proof whose fields have the types `generateZKProof` gives them; the nationality
marker is any value. -/
structure Proof where
  commitment : String
  issuedAt : Int
  hasValidID : Bool
  ageOver18 : Bool
  hasPaymentMethod : Bool
  nationality : JSVal

/-- The object of a typed proof, as `generateZKProof` lays it out. -/
def Proof.toJS (p : Proof) : JSVal :=
  .obj [
    ("commitment", .str p.commitment),
    ("timestamp", .num (.int p.issuedAt)),
    ("claims", .obj [
      ("hasValidID", .bool p.hasValidID),
      ("ageOver18", .bool p.ageOver18),
      ("hasPaymentMethod", .bool p.hasPaymentMethod),
      ("nationality", p.nationality)])]

/-- The verdict of a verification: accepted when `verifyProof` returns a truthy value;
a thrown exception is a rejection (`handleVerify` stores `valid: false`). -/
def accepted (r : Except JSErr JSVal) : Bool :=
  match r with
  | .ok v => truthy v
  | .error _ => false

/-- The validity window of the code, `5 * 60 * 1000` milliseconds. -/
def ttl : Int := 5 * 60 * 1000

/-! ## A host for concrete evaluations -/

/-- Value of a string of decimal digits, `none` if a character is not a digit. -/
def digitsValue : List Char → Nat → Option Nat
  | [], acc => some acc
  | c :: rest, acc =>
    if 48 ≤ c.toNat ∧ c.toNat ≤ 57 then digitsValue rest (acc * 10 + (c.toNat - 48)) else none

/-- `StringToNumber` on integer numerals: the empty string is `0`, an optionally signed
digit string is its value, and any other string is `NaN` (numerals with a fraction or an
exponent denote numbers outside `JSNum`). -/
def integerStringToNumber (s : String) : JSNum :=
  match s.data with
  | [] => .int 0
  | '-' :: c :: rest => ((digitsValue (c :: rest) 0).map (fun n => JSNum.int (-(n : Int)))).getD .nan
  | '+' :: c :: rest => ((digitsValue (c :: rest) 0).map (fun n => JSNum.int n)).getD .nan
  | cs => ((digitsValue cs 0).map (fun n => JSNum.int n)).getD .nan

/-- A host with integer numerals and a date rendering that prints the time value. -/
def integerHost : Host where
  stringToNumber := integerStringToNumber
  dateToLocaleString := fun v =>
    match v with
    | .num (.int ms) => intToString ms
    | _ => "Invalid Date"

/-! ## Decoders used in the injectivity proofs -/

/-- Value of a base64 character; 64 for a character outside the alphabet. -/
def b64Val (c : Char) : Nat :=
  if 65 ≤ c.toNat ∧ c.toNat ≤ 90 then c.toNat - 65
  else if 97 ≤ c.toNat ∧ c.toNat ≤ 122 then c.toNat - 71
  else if 48 ≤ c.toNat ∧ c.toNat ≤ 57 then c.toNat + 4
  else if c = '+' then 62
  else if c = '/' then 63
  else 64

/-- Value of a decimal numeral. -/
def decValue (cs : List Char) : Nat :=
  Nat.ofDigits 10 ((cs.map (fun c => c.toNat - 48)).reverse)

/-! ## Lemmas on `verifyProof` -/

/-- The claim conjunction on a typed proof is the boolean conjunction of its three gating
claims. -/
theorem verifyClaims_toJS (p : Proof) :
    verifyClaims p.toJS = .ok (.bool (p.hasValidID && p.ageOver18 && p.hasPaymentMethod)) := by
  cases p with
  | mk c t a b d n =>
    cases a <;> cases b <;> cases d <;> rfl

/-- Closed form of `verifyProof` on a typed proof: rejection on an empty commitment or an
age above the window, else the conjunction of the gating claims. -/
theorem verifyProof_toJS (host : Host) (p : Proof) (now : Int) :
    verifyProof host p.toJS now =
      if p.commitment = "" ∨ now - p.issuedAt > 5 * 60 * 1000 then .ok (.bool false)
      else .ok (.bool (p.hasValidID && p.ageOver18 && p.hasPaymentMethod)) := by
  have hcl := verifyClaims_toJS p
  unfold verifyProof
  simp only [Proof.toJS] at hcl ⊢
  simp only [hcl]
  simp [truthy, getProp, lookupField, toNumber, numSub, numGt, bind, Except.bind, pure,
    Except.pure]
  by_cases h1 : p.commitment = "" <;> by_cases h2 : 300000 < now - p.issuedAt <;>
    simp [h1, h2]

/-- A truthy value of the claim conjunction comes from three truthy gating claims. -/
theorem verifyClaims_ok_truthy (proof v : JSVal) (h : verifyClaims proof = .ok v)
    (hv : truthy v = true) :
    ∃ claims a b, getProp proof "claims" = .ok claims ∧
      getProp claims "hasValidID" = .ok a ∧ getProp claims "ageOver18" = .ok b ∧
      getProp claims "hasPaymentMethod" = .ok v ∧ truthy a = true ∧ truthy b = true := by
  unfold verifyClaims at h
  cases hcl : getProp proof "claims" with
  | error e => simp [hcl, bind, Except.bind] at h
  | ok claims =>
    cases ha : getProp claims "hasValidID" with
    | error e => simp [hcl, ha, bind, Except.bind] at h
    | ok a =>
      cases hta : truthy a with
      | false =>
        simp [hcl, ha, hta, bind, Except.bind, pure, Except.pure] at h
        subst h
        rw [hta] at hv
        cases hv
      | true =>
        cases hb : getProp claims "ageOver18" with
        | error e => simp [hcl, ha, hta, hb, bind, Except.bind] at h
        | ok b =>
          cases htb : truthy b with
          | false =>
            simp [hcl, ha, hta, hb, htb, bind, Except.bind, pure, Except.pure] at h
            subst h
            rw [htb] at hv
            cases hv
          | true =>
            simp [hcl, ha, hta, hb, htb, bind, Except.bind, pure, Except.pure] at h
            exact ⟨claims, a, b, rfl, ha, hb, h, hta, htb⟩

/-- A value returned by `verifyProof` is `false` or the value of the claim conjunction. -/
theorem verifyProof_ok_cases (host : Host) (proof v : JSVal) (now : Int)
    (h : verifyProof host proof now = .ok v) :
    v = .bool false ∨ verifyClaims proof = .ok v := by
  unfold verifyProof at h
  split at h
  · left; simp [pure, Except.pure] at h; exact h.symm
  · cases hc : getProp proof "commitment" with
    | error e => simp [hc, bind, Except.bind] at h
    | ok c =>
      simp only [hc, bind, Except.bind] at h
      split at h
      · left; simp [pure, Except.pure] at h; exact h.symm
      · cases hts : getProp proof "timestamp" with
        | error e => simp [hts] at h
        | ok ts =>
          simp only [hts] at h
          cases hn : toNumber host ts with
          | error e => simp [hn] at h
          | ok n =>
            simp only [hn] at h
            split at h
            · left; simp [pure, Except.pure] at h; exact h.symm
            · right; exact h

/-- The three outcomes of `verifyProof`: `false`, an exception, or the claim conjunction. -/
theorem verifyProof_cases (host : Host) (proof : JSVal) (now : Int) :
    verifyProof host proof now = .ok (.bool false) ∨
    (∃ e, verifyProof host proof now = .error e) ∨
    verifyProof host proof now = verifyClaims proof := by
  cases h : verifyProof host proof now with
  | error e => right; left; exact ⟨e, rfl⟩
  | ok v =>
    rcases verifyProof_ok_cases _ _ _ _ h with h1 | h1
    · left; rw [h1]
    · right; right; exact h1.symm

/-- Without a truthy commitment `verifyProof` returns `false`. -/
theorem verifyProof_no_commitment (host : Host) (proof : JSVal) (now : Int)
    (hc : ∀ c, getProp proof "commitment" = .ok c → truthy c = false) :
    verifyProof host proof now = .ok (.bool false) := by
  unfold verifyProof
  split
  · rfl
  · cases hg : getProp proof "commitment" with
    | error e =>
      cases proof <;> simp_all [getProp, truthy]
    | ok c =>
      simp [bind, Except.bind, hc c hg]
      rfl

/-- When `claims` is not a plain object the claim conjunction throws or is `undefined`. -/
theorem verifyClaims_not_obj (proof cl : JSVal) (hcl : getProp proof "claims" = .ok cl)
    (hno : ∀ fs, cl ≠ .obj fs) :
    (∃ e, verifyClaims proof = .error e) ∨ verifyClaims proof = .ok .undefined := by
  unfold verifyClaims
  rw [hcl]
  cases cl with
  | obj fs => exact absurd rfl (hno fs)
  | undefined => left; exact ⟨_, rfl⟩
  | null => left; exact ⟨_, rfl⟩
  | bool b => right; rfl
  | num n => right; rfl
  | str s => right; rfl
  | arr l => right; rfl

/-! ## Lemmas on `handleVerify` -/

/-- The stored result is the object of the `try` block, or the object of the `catch`. -/
theorem handleVerify_result (host : Host) (st : State) (parsed : Except JSErr JSVal)
    (now : Int) :
    (handleVerify host st parsed now).verificationResult =
      match verifyAttempt host parsed now with
      | .ok r => r
      | .error _ => errorResult := by
  unfold handleVerify
  cases verifyAttempt host parsed now <;> rfl

/-- A completed `try` block: every step succeeded and the result has the three fields. -/
theorem verifyAttempt_ok (host : Host) (parsed : Except JSErr JSVal) (now : Int) (r : JSVal)
    (h : verifyAttempt host parsed now = .ok r) :
    ∃ proof v claims ts prim, parsed = .ok proof ∧ verifyProof host proof now = .ok v ∧
      getProp proof "claims" = .ok claims ∧ getProp proof "timestamp" = .ok ts ∧
      toPrimitive ts = .ok prim ∧
      r = .obj [("valid", v), ("claims", claims),
        ("timestamp", .str (host.dateToLocaleString prim))] := by
  unfold verifyAttempt at h
  cases parsed with
  | error e => simp [bind, Except.bind] at h
  | ok proof =>
    cases hv : verifyProof host proof now with
    | error e => simp [hv, bind, Except.bind] at h
    | ok v =>
      cases hcl : getProp proof "claims" with
      | error e => simp [hv, hcl, bind, Except.bind] at h
      | ok claims =>
        cases hts : getProp proof "timestamp" with
        | error e => simp [hv, hcl, hts, bind, Except.bind] at h
        | ok ts =>
          cases hp : toPrimitive ts with
          | error e => simp [hv, hcl, hts, hp, bind, Except.bind] at h
          | ok prim =>
            simp [hv, hcl, hts, hp, bind, Except.bind, pure, Except.pure] at h
            exact ⟨proof, v, claims, ts, prim, rfl, hv, hcl, hts, hp, h.symm⟩

/-- When `verifyProof` returns `v`, the stored `valid` is `v`, unless a later step of the
`try` block throws and the `catch` object is stored. -/
theorem verifyAttempt_valid (host : Host) (st : State) (proof v : JSVal) (now : Int)
    (h : verifyProof host proof now = .ok v) :
    (handleVerify host st (.ok proof) now).verificationResult = errorResult ∨
    getProp (handleVerify host st (.ok proof) now).verificationResult "valid" = .ok v := by
  rw [handleVerify_result]
  cases hva : verifyAttempt host (.ok proof) now with
  | error e => left; rfl
  | ok r =>
    right
    obtain ⟨proof', v', claims, ts, prim, hp, hv, -, -, -, hr⟩ := verifyAttempt_ok _ _ _ _ hva
    injection hp with hp
    subst hp
    rw [h] at hv
    injection hv with hv
    subst hv
    subst hr
    rfl

/-- An exception of `verifyProof` is caught and the `catch` object is stored. -/
theorem verifyProof_error_result (host : Host) (st : State) (proof : JSVal) (now : Int)
    (e : JSErr) (h : verifyProof host proof now = .error e) :
    (handleVerify host st (.ok proof) now).verificationResult = errorResult := by
  rw [handleVerify_result]
  simp [verifyAttempt, h, bind, Except.bind]

/-! ## Lemmas on `btoa` and the decimal rendering -/

/-- The decoder inverts the alphabet. -/
theorem b64Val_b64Char : ∀ i, i < 64 → b64Val (b64Char i) = i := by
  decide

/-- The padding character is outside the alphabet. -/
theorem b64Val_pad : b64Val '=' = 64 := by
  decide

/-- The alphabet is injective on sextets. -/
theorem b64Char_inj (i j : Nat) (hi : i < 64) (hj : j < 64) (h : b64Char i = b64Char j) :
    i = j := by
  have := congrArg b64Val h
  rwa [b64Val_b64Char i hi, b64Val_b64Char j hj] at this

/-- No sextet is rendered as the padding character. -/
theorem b64Char_ne_pad (i : Nat) (hi : i < 64) : b64Char i ≠ '=' := by
  intro h
  have := congrArg b64Val h
  rw [b64Val_b64Char i hi, b64Val_pad] at this
  omega

/-- Base64 with padding is injective on lists of octets. -/
theorem b64Encode_injective (l1 : List Nat) : ∀ l2 : List Nat,
    (∀ x ∈ l1, x < 256) → (∀ x ∈ l2, x < 256) → b64Encode l1 = b64Encode l2 → l1 = l2 := by
  induction l1 using b64Encode.induct with
  | case1 =>
    intro l2 _ _ h
    match l2 with
    | [] => rfl
    | [_] => simp [b64Encode] at h
    | [_, _] => simp [b64Encode] at h
    | _ :: _ :: _ :: _ => simp [b64Encode] at h
  | case2 a =>
    intro l2 h1 h2 h
    have ha : a < 256 := h1 a (by simp)
    match l2, h2, h with
    | [], _, h => simp [b64Encode] at h
    | [a'], h2, h =>
      have ha' : a' < 256 := h2 a' (by simp)
      simp only [b64Encode, List.cons.injEq, and_true] at h
      have e1 := b64Char_inj _ _ (by omega) (by omega) h.1
      have e2 := b64Char_inj _ _ (by omega) (by omega) h.2
      have : a = a' := by omega
      rw [this]
    | [a', b'], h2, h =>
      have hb' : b' < 256 := h2 b' (by simp)
      simp only [b64Encode, List.cons.injEq, and_true] at h
      exact absurd h.2.2.symm (b64Char_ne_pad _ (by omega))
    | a' :: b' :: c' :: r, h2, h =>
      have hb' : b' < 256 := h2 b' (by simp)
      have hc' : c' < 256 := h2 c' (by simp)
      simp only [b64Encode, List.cons.injEq] at h
      exact absurd h.2.2.1.symm (b64Char_ne_pad _ (by omega))
  | case3 a b =>
    intro l2 h1 h2 h
    have ha : a < 256 := h1 a (by simp)
    have hb : b < 256 := h1 b (by simp)
    match l2, h2, h with
    | [], _, h => simp [b64Encode] at h
    | [a'], h2, h =>
      simp only [b64Encode, List.cons.injEq, and_true] at h
      exact absurd h.2.2 (b64Char_ne_pad _ (by omega))
    | [a', b'], h2, h =>
      have ha' : a' < 256 := h2 a' (by simp)
      have hb' : b' < 256 := h2 b' (by simp)
      simp only [b64Encode, List.cons.injEq, and_true] at h
      have e1 := b64Char_inj _ _ (by omega) (by omega) h.1
      have e2 := b64Char_inj _ _ (by omega) (by omega) h.2.1
      have e3 := b64Char_inj _ _ (by omega) (by omega) h.2.2
      have : a = a' := by omega
      have : b = b' := by omega
      subst_vars
      rfl
    | a' :: b' :: c' :: r, h2, h =>
      have hc' : c' < 256 := h2 c' (by simp)
      simp only [b64Encode, List.cons.injEq] at h
      exact absurd h.2.2.2.1.symm (b64Char_ne_pad _ (by omega))
  | case4 a b c rest ih =>
    intro l2 h1 h2 h
    have ha : a < 256 := h1 a (by simp)
    have hb : b < 256 := h1 b (by simp)
    have hc : c < 256 := h1 c (by simp)
    match l2, h2, h with
    | [], _, h => simp [b64Encode] at h
    | [a'], h2, h =>
      simp only [b64Encode, List.cons.injEq] at h
      exact absurd h.2.2.1 (b64Char_ne_pad _ (by omega))
    | [a', b'], h2, h =>
      simp only [b64Encode, List.cons.injEq] at h
      exact absurd h.2.2.2.1 (b64Char_ne_pad _ (by omega))
    | a' :: b' :: c' :: r, h2, h =>
      have ha' : a' < 256 := h2 a' (by simp)
      have hb' : b' < 256 := h2 b' (by simp)
      have hc' : c' < 256 := h2 c' (by simp)
      simp only [b64Encode, List.cons.injEq] at h
      have e1 := b64Char_inj _ _ (by omega) (by omega) h.1
      have e2 := b64Char_inj _ _ (by omega) (by omega) h.2.1
      have e3 := b64Char_inj _ _ (by omega) (by omega) h.2.2.1
      have e4 := b64Char_inj _ _ (by omega) (by omega) h.2.2.2.1
      have hr : rest = r :=
        ih r (fun x hx => h1 x (by simp [hx])) (fun x hx => h2 x (by simp [hx])) h.2.2.2.2
      have : a = a' := by omega
      have : b = b' := by omega
      have : c = c' := by omega
      subst_vars
      rfl

/-- The encoding of a non-empty list of octets is non-empty. -/
theorem b64Encode_ne_nil (l : List Nat) (h : l ≠ []) : b64Encode l ≠ [] := by
  match l, h with
  | [_], _ => simp [b64Encode]
  | [_, _], _ => simp [b64Encode]
  | _ :: _ :: _ :: _, _ => simp [b64Encode]

/-- Two strings with the same `btoa` output are equal. -/
theorem btoa_injective (s1 s2 c : String) (h1 : btoa s1 = .ok c) (h2 : btoa s2 = .ok c) :
    s1 = s2 := by
  unfold btoa at h1 h2
  split at h1
  · rename_i hs1
    split at h2
    · rename_i hs2
      injection h1 with h1
      injection h2 with h2
      have h : b64Encode (s1.data.map Char.toNat) = b64Encode (s2.data.map Char.toNat) := by
        have := h1.trans h2.symm
        injection this
      have hb : ∀ s : String, latin1 s = true → ∀ x ∈ s.data.map Char.toNat, x < 256 := by
        intro s hs x hx
        rw [List.mem_map] at hx
        obtain ⟨ch, hch, rfl⟩ := hx
        unfold latin1 at hs
        rw [List.all_eq_true] at hs
        have := hs ch hch
        simp at this
        omega
      have hl := b64Encode_injective _ _ (hb s1 hs1) (hb s2 hs2) h
      have hinj : Function.Injective Char.toNat := by
        intro a b hab
        rw [← Char.ofNat_toNat a, ← Char.ofNat_toNat b, hab]
      exact String.ext (List.map_injective_iff.mpr hinj hl)
    · cases h2
  · cases h1

/-- The output of `btoa` on a non-empty string is non-empty. -/
theorem btoa_ne_empty (s c : String) (h : btoa s = .ok c) (hs : s ≠ "") : c ≠ "" := by
  unfold btoa at h
  split at h
  · injection h with h
    subst h
    intro hc
    have h1 : b64Encode (s.data.map Char.toNat) = [] := congrArg String.data hc
    apply b64Encode_ne_nil _ _ h1
    intro h2
    apply hs
    cases s with
    | mk d =>
      simp at h2
      simp [h2]
  · cases h

/-- A string with a character above 255 in a prefix makes `btoa` throw. -/
theorem btoa_append_error (s t : String) (h : latin1 s = false) :
    btoa (s ++ t) = .error .invalidCharacter := by
  unfold btoa latin1
  unfold latin1 at h
  rw [String.data_append, List.all_append, h]
  rfl

/-- The digit character of `d` decodes to `d`. -/
theorem digitChar_toNat : ∀ d, d < 10 → (digitChar d).toNat - 48 = d := by
  decide

/-- A digit character is not the minus sign. -/
theorem digitChar_ne_minus : ∀ d, d < 10 → digitChar d ≠ '-' := by
  decide

/-- With enough fuel `decDigits` is the list of decimal digits. -/
theorem decDigits_eq_digits (fuel : Nat) :
    ∀ n, n ≤ fuel → decDigits fuel n = Nat.digits 10 n := by
  induction fuel with
  | zero =>
    intro n hn
    have : n = 0 := by omega
    subst this
    simp [decDigits]
  | succ f ih =>
    intro n hn
    by_cases h0 : n = 0
    · subst h0
      simp [decDigits]
    · rw [decDigits, if_neg h0, Nat.digits_def' (by norm_num) (by omega),
        ih (n / 10) (by omega)]

/-- Decoding the characters of a digit list gives the list back. -/
theorem map_digit_value (l : List Nat) (h : ∀ d ∈ l, d < 10) :
    (l.map digitChar).map (fun c => c.toNat - 48) = l := by
  induction l with
  | nil => rfl
  | cons d r ih =>
    simp only [List.map_cons]
    rw [digitChar_toNat d (h d (by simp)), ih (fun x hx => h x (by simp [hx]))]

/-- The decimal numeral of `n` has value `n`. -/
theorem decValue_natToDec (n : Nat) : decValue (natToDec n) = n := by
  unfold natToDec decValue
  by_cases h0 : n = 0
  · subst h0
    simp
  · rw [if_neg h0, decDigits_eq_digits n n (le_refl n),
      map_digit_value, List.reverse_reverse, Nat.ofDigits_digits]
    intro d hd
    rw [List.mem_reverse] at hd
    exact Nat.digits_lt_base (by norm_num) hd

/-- A decimal numeral starts with a digit. -/
theorem natToDec_head (n : Nat) : ∃ d r, d < 10 ∧ natToDec n = digitChar d :: r := by
  unfold natToDec
  by_cases h0 : n = 0
  · exact ⟨0, [], by norm_num, by rw [if_pos h0]; rfl⟩
  · rw [if_neg h0, decDigits_eq_digits n n (le_refl n)]
    have hne : (Nat.digits 10 n).reverse ≠ [] := by
      simp [Nat.digits_eq_nil_iff_eq_zero, h0]
    cases hl : (Nat.digits 10 n).reverse with
    | nil => exact absurd hl hne
    | cons d r =>
      refine ⟨d, r.map digitChar, ?_, rfl⟩
      have : d ∈ (Nat.digits 10 n).reverse := by rw [hl]; simp
      rw [List.mem_reverse] at this
      exact Nat.digits_lt_base (by norm_num) this

/-- Different integers have different decimal renderings. -/
theorem intToString_injective (a b : Int) (h : intToString a = intToString b) : a = b := by
  unfold intToString at h
  have hd := congrArg String.data h
  by_cases ha : a < 0 <;> by_cases hb : b < 0
  · simp only [if_pos ha, if_pos hb, List.cons.injEq, true_and] at hd
    have := congrArg decValue hd
    rw [decValue_natToDec, decValue_natToDec] at this
    omega
  · simp only [if_pos ha, if_neg hb] at hd
    obtain ⟨d, r, hlt, hr⟩ := natToDec_head b.natAbs
    rw [hr] at hd
    injection hd with h1 _
    exact absurd h1.symm (digitChar_ne_minus d hlt)
  · simp only [if_neg ha, if_pos hb] at hd
    obtain ⟨d, r, hlt, hr⟩ := natToDec_head a.natAbs
    rw [hr] at hd
    injection hd with h1 _
    exact absurd h1 (digitChar_ne_minus d hlt)
  · simp only [if_neg ha, if_neg hb] at hd
    have := congrArg decValue hd
    rw [decValue_natToDec, decValue_natToDec] at this
    omega

/-! ## Lemmas on `generateZKProof` -/

/-- Concatenation preserves the Latin-1 property. -/
theorem latin1_append (s t : String) : latin1 (s ++ t) = (latin1 s && latin1 t) := by
  simp [latin1, List.all_append]

/-- Hexadecimal digits are Latin-1. -/
theorem hexChar_le : ∀ d, d < 16 → (hexChar d).toNat ≤ 255 := by
  decide

/-- Decimal digits are Latin-1. -/
theorem digitChar_le : ∀ d, d < 10 → (digitChar d).toNat ≤ 255 := by
  decide

/-- Escaping a Latin-1 character yields Latin-1 characters. -/
theorem quoteChar_le (c : Char) (hc : c.toNat ≤ 255) : ∀ x ∈ quoteChar c, x.toNat ≤ 255 := by
  have hbs : backslash.toNat ≤ 255 := by decide
  have hdq : dquote.toNat ≤ 255 := by decide
  have h1 : (hexChar (c.toNat / 16)).toNat ≤ 255 := hexChar_le _ (by omega)
  have h2 : (hexChar (c.toNat % 16)).toNat ≤ 255 := hexChar_le _ (by omega)
  have hb : ('b' : Char).toNat ≤ 255 := by decide
  have ht : ('t' : Char).toNat ≤ 255 := by decide
  have hn : ('n' : Char).toNat ≤ 255 := by decide
  have hf : ('f' : Char).toNat ≤ 255 := by decide
  have hr : ('r' : Char).toNat ≤ 255 := by decide
  have hu : ('u' : Char).toNat ≤ 255 := by decide
  have h0 : ('0' : Char).toNat ≤ 255 := by decide
  unfold quoteChar
  split_ifs <;>
    simp only [List.forall_mem_cons, List.not_mem_nil, false_implies, implies_true,
      and_true] <;>
    simp only [hbs, hdq, h1, h2, hb, ht, hn, hf, hr, hu, h0, hc, and_self]

/-- Quoting a Latin-1 string yields a Latin-1 string. -/
theorem latin1_quoteString (s : String) (h : latin1 s = true) :
    latin1 (quoteString s) = true := by
  unfold latin1 at h ⊢
  rw [List.all_eq_true] at h ⊢
  intro x hx
  simp only [quoteString, List.mem_cons, List.mem_append, List.mem_flatMap,
    List.mem_singleton, List.not_mem_nil, or_false] at hx
  have hdq : dquote.toNat ≤ 255 := by decide
  rcases hx with h1 | ⟨c, hc, hxc⟩ | h1
  · rw [h1]; simpa using hdq
  · have := h c hc
    simp only [decide_eq_true_eq] at this ⊢
    exact quoteChar_le c this x hxc
  · rw [h1]; simpa using hdq

/-- The decimal rendering of an integer is Latin-1. -/
theorem latin1_intToString (i : Int) : latin1 (intToString i) = true := by
  have hnat : ∀ n : Nat, ∀ x ∈ natToDec n, x.toNat ≤ 255 := by
    intro n x hx
    unfold natToDec at hx
    by_cases h0 : n = 0
    · rw [if_pos h0] at hx
      simp only [List.mem_singleton] at hx
      rw [hx]; decide
    · rw [if_neg h0, decDigits_eq_digits n n (le_refl n), List.mem_map] at hx
      obtain ⟨d, hd, rfl⟩ := hx
      rw [List.mem_reverse] at hd
      exact digitChar_le d (Nat.digits_lt_base (by norm_num) hd)
  unfold latin1 intToString
  rw [List.all_eq_true]
  intro x hx
  simp only [decide_eq_true_eq]
  split_ifs at hx
  · simp only [List.mem_cons] at hx
    rcases hx with h | h
    · rw [h]; decide
    · exact hnat _ x h
  · exact hnat _ x hx

/-- The serialization of an attribute record. -/
theorem jsonStringify_record (r : AttributeRecord) :
    jsonStringify r.toJS = some ("\x7b" ++ (quoteString "name" ++ ":" ++ quoteString r.name ++
      "," ++ (quoteString "age" ++ ":" ++ intToString r.age) ++
      "," ++ (quoteString "aadharLast4" ++ ":" ++ quoteString r.idFragment) ++
      "," ++ (quoteString "hasCard" ++ ":" ++ (if r.hasPaymentMethod then "true" else "false")))
      ++ "\x7d") := by
  simp [AttributeRecord.toJS, jsonStringify, stringifyFields, String.intercalate,
    String.intercalate.go]

/-- Only `undefined` serializes to `undefined`. -/
theorem jsonStringify_eq_none (v : JSVal) (h : jsonStringify v = none) : v = .undefined := by
  cases v with
  | undefined => rfl
  | null => simp [jsonStringify] at h
  | bool b => simp [jsonStringify] at h
  | num n => cases n <;> simp [jsonStringify] at h
  | str s => simp [jsonStringify] at h
  | arr l => simp [jsonStringify] at h
  | obj fs => simp [jsonStringify] at h

/-- The commitment input of an object is not the empty string. -/
theorem commitmentInput_obj_ne_empty (fs : List (String × JSVal)) (t : Int) :
    commitmentInput (.obj fs) t ≠ "" := by
  intro h
  have h1 := congrArg String.data h
  simp [commitmentInput, jsonStringify] at h1

/-- On an attribute record `generateZKProof` returns a typed proof whenever `btoa`
succeeds. -/
theorem generateZKProof_toJS (host : Host) (r : AttributeRecord) (tCommit tStamp : Int) :
    generateZKProof host r.toJS tCommit tStamp =
      (btoa (commitmentInput r.toJS tCommit)).map (fun c =>
        Proof.toJS ⟨c, tStamp, true, decide (18 ≤ r.age), r.hasPaymentMethod,
          .str "VERIFIED"⟩) := by
  unfold generateZKProof
  cases btoa (commitmentInput r.toJS tCommit) with
  | error e => rfl
  | ok c => rfl

/-- A returned proof carries the `btoa` of the serialized record followed by the first
clock read, and the second clock read as `timestamp`. -/
theorem generateZKProof_ok (host : Host) (userData p : JSVal) (tCommit tStamp : Int)
    (h : generateZKProof host userData tCommit tStamp = .ok p) :
    ∃ c s, jsonStringify userData = some s ∧ btoa (s ++ intToString tCommit) = .ok c ∧
      getProp p "commitment" = .ok (.str c) ∧
      getProp p "timestamp" = .ok (.num (.int tStamp)) := by
  unfold generateZKProof at h
  cases hb : btoa (commitmentInput userData tCommit) with
  | error e => simp [hb, bind, Except.bind] at h
  | ok c =>
    cases ha : getProp userData "age" with
    | error e => simp [hb, ha, bind, Except.bind] at h
    | ok age =>
      cases hn : toNumber host age with
      | error e => simp [hb, ha, hn, bind, Except.bind] at h
      | ok n =>
        cases hc : getProp userData "hasCard" with
        | error e => simp [hb, ha, hn, hc, bind, Except.bind] at h
        | ok card =>
          simp [hb, ha, hn, hc, bind, Except.bind, pure, Except.pure] at h
          subst h
          cases hs : jsonStringify userData with
          | none =>
            rw [jsonStringify_eq_none userData hs] at ha
            cases ha
          | some s =>
            refine ⟨c, s, rfl, ?_, rfl, rfl⟩
            simpa [commitmentInput, hs] using hb

/-- Generation succeeds on a record whose name and identifier fragment are Latin-1. -/
theorem generateZKProof_latin1 (host : Host) (r : AttributeRecord) (tCommit tStamp : Int)
    (hname : latin1 r.name = true) (hid : latin1 r.idFragment = true) :
    ∃ c, generateZKProof host r.toJS tCommit tStamp =
      .ok (Proof.toJS ⟨c, tStamp, true, decide (18 ≤ r.age), r.hasPaymentMethod,
        .str "VERIFIED"⟩) := by
  rw [generateZKProof_toJS]
  have hl : latin1 (commitmentInput r.toJS tCommit) = true := by
    unfold commitmentInput
    rw [jsonStringify_record]
    simp only [latin1_append, Bool.and_eq_true]
    have hb : latin1 (if r.hasPaymentMethod then "true" else "false") = true := by
      cases r.hasPaymentMethod <;> decide
    refine ⟨⟨⟨by decide, ⟨⟨⟨⟨⟨⟨?_, by decide⟩, ?_⟩, by decide⟩, ?_⟩, by decide⟩, ?_⟩⟩,
      by decide⟩, latin1_intToString _⟩
    · exact ⟨⟨by decide, by decide⟩, latin1_quoteString _ hname⟩
    · exact ⟨⟨by decide, by decide⟩, latin1_intToString _⟩
    · exact ⟨⟨by decide, by decide⟩, latin1_quoteString _ hid⟩
    · exact ⟨⟨by decide, by decide⟩, hb⟩
  have hbt : btoa (commitmentInput r.toJS tCommit) =
      .ok (String.mk (b64Encode ((commitmentInput r.toJS tCommit).data.map Char.toNat))) := by
    unfold btoa
    rw [if_pos hl]
  rw [hbt]
  exact ⟨_, rfl⟩

/-! ## Verification of well-formed proofs (C1, C3, C4) -/

/-- C1: a proof with a non-empty commitment that is not expired at `now` (its age does not
exceed the window) is accepted by `verifyProof` exactly when `hasValidID`, `ageOver18` and
`hasPaymentMethod` are all true; replacing the nationality marker by any other value
leaves the result of `verifyProof` unchanged. -/
theorem verifyProof_accepts_iff_gating_claims (host : Host) (p : Proof) (now : Int)
    (hc : p.commitment ≠ "") (hfresh : now - p.issuedAt ≤ ttl) :
    (accepted (verifyProof host p.toJS now) = true ↔
      (p.hasValidID = true ∧ p.ageOver18 = true ∧ p.hasPaymentMethod = true)) ∧
    (∀ marker : JSVal,
      verifyProof host ({ p with nationality := marker } : Proof).toJS now =
        verifyProof host p.toJS now) := by
  have hnot : ¬ (p.commitment = "" ∨ now - p.issuedAt > 5 * 60 * 1000) := by
    simp only [ttl] at hfresh
    rintro (h | h)
    · exact hc h
    · omega
  constructor
  · rw [verifyProof_toJS, if_neg hnot]
    simp [accepted, truthy, and_assoc]
  · intro marker
    rw [verifyProof_toJS, verifyProof_toJS]

/-- Instance of C1 at a proof issued at 1000 and verified at 1100. -/
theorem verifyProof_accepts_iff_gating_claims_witness :
    (accepted (verifyProof integerHost
        (Proof.toJS ⟨"eyJ9MTAwMA==", 1000, true, true, true, .str "VERIFIED"⟩) 1100) = true ↔
      (true = true ∧ true = true ∧ true = true)) ∧
    (∀ marker : JSVal,
      verifyProof integerHost
          (Proof.toJS ⟨"eyJ9MTAwMA==", 1000, true, true, true, marker⟩) 1100 =
        verifyProof integerHost
          (Proof.toJS ⟨"eyJ9MTAwMA==", 1000, true, true, true, .str "VERIFIED"⟩) 1100) :=
  verifyProof_accepts_iff_gating_claims integerHost
    ⟨"eyJ9MTAwMA==", 1000, true, true, true, .str "VERIFIED"⟩ 1100 (by decide) (by decide)

/-- C3: the window is 300000 ms; a proof with a non-empty commitment and three true gating
claims is accepted at every instant whose distance from `issuedAt` is between 0 and the
window, and rejected at every instant further than the window; in particular it is
accepted at `issuedAt + ttl - 1` and rejected at `issuedAt + ttl + 1`. -/
theorem verifyProof_expiry_window (host : Host) (p : Proof) (now : Int)
    (hc : p.commitment ≠ "") (hid : p.hasValidID = true) (hage : p.ageOver18 = true)
    (hpay : p.hasPaymentMethod = true) :
    ttl = 300000 ∧
    (0 ≤ now - p.issuedAt → now - p.issuedAt ≤ ttl →
      accepted (verifyProof host p.toJS now) = true) ∧
    (now - p.issuedAt > ttl → accepted (verifyProof host p.toJS now) = false) ∧
    accepted (verifyProof host p.toJS (p.issuedAt + ttl - 1)) = true ∧
    accepted (verifyProof host p.toJS (p.issuedAt + ttl + 1)) = false := by
  simp only [verifyProof_toJS, ttl, hid, hage, hpay]
  refine ⟨by norm_num, ?_, ?_, ?_, ?_⟩
  · intro _ h
    rw [if_neg]
    · rfl
    · rintro (h' | h')
      · exact hc h'
      · omega
  · intro h
    rw [if_pos (Or.inr (by omega))]
    rfl
  · rw [if_neg]
    · rfl
    · rintro (h' | h')
      · exact hc h'
      · omega
  · rw [if_pos (Or.inr (by omega))]
    rfl

/-- Instance of C3 at a proof issued at 1000, probed at 301000 (the last accepted
instant). -/
theorem verifyProof_expiry_window_witness :
    ttl = 300000 ∧
    (0 ≤ (301000 : Int) - 1000 → (301000 : Int) - 1000 ≤ ttl →
      accepted (verifyProof integerHost
        (Proof.toJS ⟨"eyJ9MTAwMA==", 1000, true, true, true, .str "VERIFIED"⟩) 301000) = true) ∧
    ((301000 : Int) - 1000 > ttl →
      accepted (verifyProof integerHost
        (Proof.toJS ⟨"eyJ9MTAwMA==", 1000, true, true, true, .str "VERIFIED"⟩) 301000) = false) ∧
    accepted (verifyProof integerHost
      (Proof.toJS ⟨"eyJ9MTAwMA==", 1000, true, true, true, .str "VERIFIED"⟩)
      (1000 + ttl - 1)) = true ∧
    accepted (verifyProof integerHost
      (Proof.toJS ⟨"eyJ9MTAwMA==", 1000, true, true, true, .str "VERIFIED"⟩)
      (1000 + ttl + 1)) = false :=
  verifyProof_expiry_window integerHost
    ⟨"eyJ9MTAwMA==", 1000, true, true, true, .str "VERIFIED"⟩ 301000
    (by decide) rfl rfl rfl

/-- C4, counterexample: a proof issued at 2000 and verified at 1000 (issued in the future)
with three true gating claims is accepted, not rejected as expired. -/
theorem future_issued_proof_is_accepted :
    (1000 : Int) - 2000 < 0 ∧
    accepted (verifyProof integerHost
      (Proof.toJS ⟨"eyJ9MTAwMA==", 2000, true, true, true, .str "VERIFIED"⟩) 1000) = true := by
  constructor
  · decide
  · rfl

/-- C4, amended: the expiry test of `verifyProof` is one-sided (`proofAge > 300000`), so a
proof whose `issuedAt` is later than the verification instant is not rejected as expired:
with a non-empty commitment it is accepted exactly when its three gating claims are
true. -/
theorem verifyProof_future_issued (host : Host) (p : Proof) (now : Int)
    (hc : p.commitment ≠ "") (hfuture : now - p.issuedAt < 0) :
    accepted (verifyProof host p.toJS now) = true ↔
      (p.hasValidID = true ∧ p.ageOver18 = true ∧ p.hasPaymentMethod = true) := by
  have hnot : ¬ (p.commitment = "" ∨ now - p.issuedAt > 5 * 60 * 1000) := by
    rintro (h | h)
    · exact hc h
    · omega
  rw [verifyProof_toJS, if_neg hnot]
  simp [accepted, truthy, and_assoc]

/-- Instance of the amended C4 at a proof issued at 2000 and verified at 1000. -/
theorem verifyProof_future_issued_witness :
    accepted (verifyProof integerHost
      (Proof.toJS ⟨"eyJ9MTAwMA==", 2000, true, true, false, .str "VERIFIED"⟩) 1000) = true ↔
      (true = true ∧ true = true ∧ false = true) :=
  verifyProof_future_issued integerHost
    ⟨"eyJ9MTAwMA==", 2000, true, true, false, .str "VERIFIED"⟩ 1000 (by decide) (by decide)

/-! ## Generation followed by verification (C2) -/

/-- C2: when `generateZKProof` returns a proof for an attribute record at instant `t0`,
verifying that proof at an instant `t1` with `0 ≤ t1 - t0 ≤ 300000` accepts it exactly when
`age ≥ 18` and the payment-method flag is true.  Generation does return a proof when the
name and the identifier fragment are Latin-1 text.  The record `Asha, 25, 1234, true`
generated at 1000 and verified at 1100 is accepted; with age 16 it is rejected although the
window has not passed. -/
theorem generated_proof_accepted_iff (host : Host) :
    (∀ (r : AttributeRecord) (tCommit t0 t1 : Int) (proof : JSVal),
      generateZKProof host r.toJS tCommit t0 = .ok proof →
      0 ≤ t1 - t0 → t1 - t0 ≤ ttl →
      (accepted (verifyProof host proof t1) = true ↔
        (18 ≤ r.age ∧ r.hasPaymentMethod = true))) ∧
    (∀ (r : AttributeRecord) (tCommit t0 : Int),
      latin1 r.name = true → latin1 r.idFragment = true →
      ∃ proof, generateZKProof host r.toJS tCommit t0 = .ok proof) ∧
    (∃ proof, generateZKProof host (AttributeRecord.toJS ⟨"Asha", 25, "1234", true⟩)
        1000 1000 = .ok proof ∧
      accepted (verifyProof host proof 1100) = true) ∧
    (∃ proof, generateZKProof host (AttributeRecord.toJS ⟨"Asha", 16, "1234", true⟩)
        1000 1000 = .ok proof ∧
      (1100 : Int) - 1000 ≤ ttl ∧
      accepted (verifyProof host proof 1100) = false) := by
  have main : ∀ (r : AttributeRecord) (tCommit t0 t1 : Int) (proof : JSVal),
      generateZKProof host r.toJS tCommit t0 = .ok proof →
      0 ≤ t1 - t0 → t1 - t0 ≤ ttl →
      (accepted (verifyProof host proof t1) = true ↔
        (18 ≤ r.age ∧ r.hasPaymentMethod = true)) := by
    intro r tCommit t0 t1 proof hgen hlo hhi
    simp only [ttl] at hhi
    rw [generateZKProof_toJS] at hgen
    cases hb : btoa (commitmentInput r.toJS tCommit) with
    | error e => rw [hb] at hgen; cases hgen
    | ok c =>
      rw [hb] at hgen
      simp only [Except.map] at hgen
      injection hgen with hgen
      subst hgen
      have hc : c ≠ "" := btoa_ne_empty _ _ hb (commitmentInput_obj_ne_empty _ _)
      rw [verifyProof_toJS, if_neg]
      · simp [accepted, truthy]
      · rintro (h | h)
        · exact hc h
        · simp only at h
          omega
  refine ⟨main, ?_, ?_, ?_⟩
  · intro r tCommit t0 hname hid
    obtain ⟨c, hc⟩ := generateZKProof_latin1 host r tCommit t0 hname hid
    exact ⟨_, hc⟩
  · obtain ⟨c, hc⟩ := generateZKProof_latin1 host ⟨"Asha", 25, "1234", true⟩ 1000 1000
      (by decide) (by decide)
    refine ⟨_, hc, ?_⟩
    rw [main ⟨"Asha", 25, "1234", true⟩ 1000 1000 1100 _ hc (by decide) (by decide)]
    decide
  · obtain ⟨c, hc⟩ := generateZKProof_latin1 host ⟨"Asha", 16, "1234", true⟩ 1000 1000
      (by decide) (by decide)
    refine ⟨_, hc, by decide, ?_⟩
    have h := main ⟨"Asha", 16, "1234", true⟩ 1000 1000 1100 _ hc (by decide) (by decide)
    cases hacc : accepted (verifyProof host (Proof.toJS
      ⟨c, 1000, true, decide ((18 : Int) ≤ 16), true, .str "VERIFIED"⟩) 1100) with
    | false => rfl
    | true =>
      have := h.mp hacc
      simp at this

/-- Instance of C2: the proof generated for `Asha, 25, 1234, true` at 1000, verified at
1100. -/
theorem generated_proof_accepted_iff_witness :
    accepted (verifyProof integerHost
      (Proof.toJS ⟨
        "eyJuYW1lIjoiQXNoYSIsImFnZSI6MjUsImFhZGhhckxhc3Q0IjoiMTIzNCIsImhhc0NhcmQiOnRydWV9MTAwMA==",
        1000, true, true, true, .str "VERIFIED"⟩) 1100) = true ↔
      ((18 : Int) ≤ 25 ∧ true = true) :=
  (generated_proof_accepted_iff integerHost).1 ⟨"Asha", 25, "1234", true⟩ 1000 1000 1100
    (Proof.toJS ⟨
      "eyJuYW1lIjoiQXNoYSIsImFnZSI6MjUsImFhZGhhckxhc3Q0IjoiMTIzNCIsImhhc0NhcmQiOnRydWV9MTAwMA==",
      1000, true, true, true, .str "VERIFIED"⟩) rfl (by decide) (by decide)

/-! ## Untrusted input to `handleVerify` (C5, C6, C7) -/

/-- C5, counterexample: four structurally invalid artifacts are shown as verified.  The
first has no `timestamp`, the second a `timestamp` that is not a number, the third gating
claims that are not booleans (the number 1 and the string `yes`), the fourth an unknown
claim key `vip`. -/
theorem invalid_shape_is_accepted :
    shownValid (handleVerify integerHost State.init
      (.ok (.obj [("commitment", .str "x"),
        ("claims", .obj [("hasValidID", .bool true), ("ageOver18", .bool true),
          ("hasPaymentMethod", .bool true)])]))
      1700000000000) = true ∧
    shownValid (handleVerify integerHost State.init
      (.ok (.obj [("commitment", .str "x"), ("timestamp", .str "soon"),
        ("claims", .obj [("hasValidID", .bool true), ("ageOver18", .bool true),
          ("hasPaymentMethod", .bool true)])]))
      1700000000000) = true ∧
    shownValid (handleVerify integerHost State.init
      (.ok (.obj [("commitment", .str "x"), ("timestamp", .num (.int 1699999999000)),
        ("claims", .obj [("hasValidID", .num (.int 1)), ("ageOver18", .str "yes"),
          ("hasPaymentMethod", .bool true)])]))
      1700000000000) = true ∧
    shownValid (handleVerify integerHost State.init
      (.ok (.obj [("commitment", .str "x"), ("timestamp", .num (.int 1699999999000)),
        ("claims", .obj [("hasValidID", .bool true), ("ageOver18", .bool true),
          ("hasPaymentMethod", .bool true), ("vip", .bool true)])]))
      1700000000000) = true := by
  refine ⟨?_, ?_, ?_, ?_⟩ <;> rfl

/-- C5, amended: `handleVerify` shows an artifact as verified only if the scanned text
parses to a value whose `claims` holds `hasValidID`, `ageOver18` and `hasPaymentMethod`,
all three truthy.  Hence an artifact in which a gating claim is missing, `false` or
another falsy value is rejected; the shape of `timestamp`, non-boolean truthy claim values
and unknown claim keys are not checked. -/
theorem handleVerify_accepted_only_if (host : Host) (st : State)
    (parsed : Except JSErr JSVal) (now : Int)
    (h : shownValid (handleVerify host st parsed now) = true) :
    ∃ proof claims a b c, parsed = .ok proof ∧ getProp proof "claims" = .ok claims ∧
      getProp claims "hasValidID" = .ok a ∧ getProp claims "ageOver18" = .ok b ∧
      getProp claims "hasPaymentMethod" = .ok c ∧
      truthy a = true ∧ truthy b = true ∧ truthy c = true := by
  unfold shownValid at h
  rw [handleVerify_result] at h
  cases hva : verifyAttempt host parsed now with
  | error e =>
    rw [hva] at h
    simp [errorResult, getProp, lookupField, truthy] at h
  | ok r =>
    rw [hva] at h
    obtain ⟨proof, v, claims, ts, prim, hp, hv, hcl, -, -, hr⟩ := verifyAttempt_ok _ _ _ _ hva
    subst hr
    simp [getProp, lookupField] at h
    rcases verifyProof_ok_cases _ _ _ _ hv with hfalse | hclaims
    · subst hfalse
      simp [truthy] at h
    · obtain ⟨claims', a, b, hcl', ha, hb, hc, hta, htb⟩ :=
        verifyClaims_ok_truthy _ _ hclaims h
      rw [hcl] at hcl'
      injection hcl' with hcl'
      subst hcl'
      exact ⟨proof, claims, a, b, v, hp, hcl, ha, hb, hc, hta, htb, h⟩

/-- Instance of the amended C5 at an accepted proof issued at 1000 and verified at 1100. -/
theorem handleVerify_accepted_only_if_witness :
    ∃ proof claims a b c,
      (.ok (Proof.toJS ⟨"eyJ9MTAwMA==", 1000, true, true, true, .str "VERIFIED"⟩) :
        Except JSErr JSVal) = .ok proof ∧
      getProp proof "claims" = .ok claims ∧
      getProp claims "hasValidID" = .ok a ∧ getProp claims "ageOver18" = .ok b ∧
      getProp claims "hasPaymentMethod" = .ok c ∧
      truthy a = true ∧ truthy b = true ∧ truthy c = true :=
  handleVerify_accepted_only_if integerHost State.init
    (.ok (Proof.toJS ⟨"eyJ9MTAwMA==", 1000, true, true, true, .str "VERIFIED"⟩)) 1100 rfl

/-- C6, counterexample: the JSON object with `commitment` the string `x` and `claims` the
number 5 is a value without a claims object, and the stored result has `valid` equal to
`undefined`, not `false`. -/
theorem primitive_claims_valid_undefined :
    getProp (handleVerify integerHost State.init
      (.ok (.obj [("commitment", .str "x"), ("claims", .num (.int 5))]))
      1700000000000).verificationResult "valid" = .ok .undefined ∧
    getProp (handleVerify integerHost State.init
      (.ok (.obj [("commitment", .str "x"), ("claims", .num (.int 5))]))
      1700000000000).verificationResult "valid" ≠ .ok (.bool false) := by
  constructor
  · rfl
  · intro h
    cases h

/-- C6, amended: for every outcome of parsing, `handleVerify` stores a result object with a
`valid` field (no exception leaves it).  That field is `false` when the text is not valid
JSON, when the parsed value has no truthy `commitment`, and when its `claims` is absent or
`null`; when `claims` is present but is not a plain object, `valid` is `false` or
`undefined`.  In particular `valid` is `false` for the parse failure of `not json` and for
the empty object, `null` and the object that holds only a commitment `x`. -/
theorem handleVerify_total_and_malformed (host : Host) (st : State) (now : Int) :
    (∀ parsed, ∃ fs v, (handleVerify host st parsed now).verificationResult = .obj fs ∧
      lookupField "valid" fs = some v) ∧
    (∀ e, getProp (handleVerify host st (.error e) now).verificationResult "valid" =
      .ok (.bool false)) ∧
    (∀ proof, (∀ c, getProp proof "commitment" = .ok c → truthy c = false) →
      getProp (handleVerify host st (.ok proof) now).verificationResult "valid" =
        .ok (.bool false)) ∧
    (∀ proof, (∀ cl, getProp proof "claims" = .ok cl → cl = .undefined ∨ cl = .null) →
      getProp (handleVerify host st (.ok proof) now).verificationResult "valid" =
        .ok (.bool false)) ∧
    (∀ proof cl, getProp proof "claims" = .ok cl → (∀ fs, cl ≠ .obj fs) →
      getProp (handleVerify host st (.ok proof) now).verificationResult "valid" =
          .ok (.bool false) ∨
        getProp (handleVerify host st (.ok proof) now).verificationResult "valid" =
          .ok .undefined) ∧
    getProp (handleVerify host st (.ok (.obj [])) now).verificationResult "valid" =
      .ok (.bool false) ∧
    getProp (handleVerify host st (.ok .null) now).verificationResult "valid" =
      .ok (.bool false) ∧
    getProp (handleVerify host st (.ok (.obj [("commitment", .str "x")])) now).verificationResult
      "valid" = .ok (.bool false) := by
  have key : ∀ proof, (∀ cl, getProp proof "claims" = .ok cl → ∀ fs, cl ≠ .obj fs) →
      getProp (handleVerify host st (.ok proof) now).verificationResult "valid" =
          .ok (.bool false) ∨
        getProp (handleVerify host st (.ok proof) now).verificationResult "valid" =
          .ok .undefined ∧ ∃ cl, getProp proof "claims" = .ok cl ∧
            verifyClaims proof = .ok .undefined := by
    intro proof hno
    rcases verifyProof_cases host proof now with h | ⟨e, h⟩ | h
    · rcases verifyAttempt_valid host st proof _ now h with h1 | h1
      · left; rw [h1]; rfl
      · left; exact h1
    · left; rw [verifyProof_error_result host st proof now e h]; rfl
    · cases hcl : getProp proof "claims" with
      | error e =>
        left
        have : verifyProof host proof now = .error e := by
          rw [h]; simp [verifyClaims, hcl, bind, Except.bind]
        rw [verifyProof_error_result host st proof now e this]; rfl
      | ok cl =>
        rcases verifyClaims_not_obj proof cl hcl (hno cl hcl) with ⟨e, h2⟩ | h2
        · left
          rw [h2] at h
          rw [verifyProof_error_result host st proof now e h]; rfl
        · rw [h2] at h
          rcases verifyAttempt_valid host st proof _ now h with h1 | h1
          · left; rw [h1]; rfl
          · right; exact ⟨h1, cl, rfl, h2⟩
  have hcommit : ∀ proof, (∀ c, getProp proof "commitment" = .ok c → truthy c = false) →
      getProp (handleVerify host st (.ok proof) now).verificationResult "valid" =
        .ok (.bool false) := by
    intro proof hc
    rcases verifyAttempt_valid host st proof _ now
      (verifyProof_no_commitment host proof now hc) with h1 | h1
    · rw [h1]; rfl
    · exact h1
  have hclaims : ∀ proof,
      (∀ cl, getProp proof "claims" = .ok cl → cl = .undefined ∨ cl = .null) →
      getProp (handleVerify host st (.ok proof) now).verificationResult "valid" =
        .ok (.bool false) := by
    intro proof hcl
    have hno : ∀ cl, getProp proof "claims" = .ok cl → ∀ fs, cl ≠ .obj fs := by
      intro cl h fs hfs
      rcases hcl cl h with h1 | h1 <;> rw [h1] at hfs <;> cases hfs
    rcases key proof hno with h | ⟨_, cl, h1, h2⟩
    · exact h
    · exfalso
      rcases hcl cl h1 with h3 | h3 <;> subst h3 <;>
        simp only [verifyClaims, h1] at h2 <;>
        simp [bind, Except.bind, getProp] at h2
  refine ⟨?_, ?_, hcommit, hclaims, ?_, ?_, ?_, ?_⟩
  · intro parsed
    rw [handleVerify_result]
    cases hva : verifyAttempt host parsed now with
    | error e => exact ⟨_, _, rfl, rfl⟩
    | ok r =>
      obtain ⟨_, v, _, _, _, -, -, -, -, -, hr⟩ := verifyAttempt_ok _ _ _ _ hva
      exact ⟨_, v, hr, rfl⟩
  · intro e
    rfl
  · intro proof cl hcl hno
    have hno' : ∀ cl', getProp proof "claims" = .ok cl' → ∀ fs, cl' ≠ .obj fs := by
      intro cl' h
      rw [hcl] at h
      injection h with h
      subst h
      exact hno
    rcases key proof hno' with h | ⟨h, _⟩
    · left; exact h
    · right; exact h
  · apply hcommit
    intro c hc
    simp [getProp, lookupField] at hc
    subst hc
    rfl
  · apply hcommit
    intro c hc
    simp [getProp] at hc
  · apply hclaims
    intro cl hcl
    simp [getProp, lookupField] at hcl
    left; exact hcl.symm

/-- Instance of the amended C6 at the JSON string `abc`, a value without a commitment. -/
theorem handleVerify_total_and_malformed_witness :
    getProp (handleVerify integerHost State.init (.ok (.str "abc"))
      1700000000000).verificationResult "valid" = .ok (.bool false) :=
  (handleVerify_total_and_malformed integerHost State.init 1700000000000).2.2.1 (.str "abc")
    (by intro c hc; cases hc; rfl)

/-- C7, counterexample: a well-formed proof issued at 1000 and verified at
`1000 + 600000` is rejected (`valid` is `false`), and the stored result carries the claims
of the proof in its `claims` field. -/
theorem expired_result_keeps_claims :
    getProp (handleVerify integerHost State.init
      (.ok (Proof.toJS ⟨"eyJ9MTAwMA==", 1000, true, true, true, .str "VERIFIED"⟩))
      (1000 + 600000)).verificationResult "valid" = .ok (.bool false) ∧
    getProp (handleVerify integerHost State.init
      (.ok (Proof.toJS ⟨"eyJ9MTAwMA==", 1000, true, true, true, .str "VERIFIED"⟩))
      (1000 + 600000)).verificationResult "claims" =
      .ok (.obj [("hasValidID", .bool true), ("ageOver18", .bool true),
        ("hasPaymentMethod", .bool true), ("nationality", .str "VERIFIED")]) := by
  constructor <;> rfl

/-- C7, amended: the result stored by `handleVerify` has no `claims` field exactly on the
`catch` path, where it is the object with `valid: false` and `error`.  That path is taken
when the text is not valid JSON, when `verifyProof` throws, and when `verifyProof` has
returned and a later step of the `try` block throws: the read of `proof.claims` or of
`proof.timestamp` (the parsed value is `null`), or the conversion of `proof.timestamp` to
a primitive for `new Date` (a `timestamp` object with an own `toString`).  When every step
completes, the stored result is `valid`, `claims`, `timestamp` with `claims` the `claims`
value of the parsed proof, whatever `valid` is; for a well-formed proof this holds whether
it is accepted, expired or fails the claim conjunction.  Every stored result is of one of
these two shapes.  The rendering shows the claims panel only when `valid` is truthy, so it
is never shown for a rejection. -/
theorem handleVerify_result_claims (host : Host) (st : State) (now : Int) :
    (∃ fs, errorResult = .obj fs ∧ hasField "claims" fs = false) ∧
    (∀ e, (handleVerify host st (.error e) now).verificationResult = errorResult) ∧
    (∀ proof e, verifyProof host proof now = .error e →
      (handleVerify host st (.ok proof) now).verificationResult = errorResult) ∧
    (∀ proof v e, verifyProof host proof now = .ok v →
      getProp proof "claims" = .error e →
      (handleVerify host st (.ok proof) now).verificationResult = errorResult) ∧
    (∀ proof v claims e, verifyProof host proof now = .ok v →
      getProp proof "claims" = .ok claims → getProp proof "timestamp" = .error e →
      (handleVerify host st (.ok proof) now).verificationResult = errorResult) ∧
    (∀ proof v claims ts e, verifyProof host proof now = .ok v →
      getProp proof "claims" = .ok claims → getProp proof "timestamp" = .ok ts →
      toPrimitive ts = .error e →
      (handleVerify host st (.ok proof) now).verificationResult = errorResult) ∧
    (∀ proof v claims ts prim, verifyProof host proof now = .ok v →
      getProp proof "claims" = .ok claims → getProp proof "timestamp" = .ok ts →
      toPrimitive ts = .ok prim →
      (handleVerify host st (.ok proof) now).verificationResult =
        .obj [("valid", v), ("claims", claims),
          ("timestamp", .str (host.dateToLocaleString prim))]) ∧
    (∀ p : Proof, (handleVerify host st (.ok p.toJS) now).verificationResult =
      .obj [("valid", .bool (decide (p.commitment ≠ "") && decide (now - p.issuedAt ≤ ttl) &&
            (p.hasValidID && p.ageOver18 && p.hasPaymentMethod))),
        ("claims", .obj [("hasValidID", .bool p.hasValidID), ("ageOver18", .bool p.ageOver18),
          ("hasPaymentMethod", .bool p.hasPaymentMethod), ("nationality", p.nationality)]),
        ("timestamp", .str (host.dateToLocaleString (.num (.int p.issuedAt))))]) ∧
    (handleVerify host st (.ok .null) now).verificationResult = errorResult ∧
    (handleVerify host st
      (.ok (.obj [("timestamp", .obj [("toString", .num (.int 1))]),
        ("claims", .obj [("hasValidID", .bool true)])])) now).verificationResult =
      errorResult ∧
    (∀ parsed, (handleVerify host st parsed now).verificationResult = errorResult ∨
      ∃ proof v claims ts prim, parsed = .ok proof ∧ verifyProof host proof now = .ok v ∧
        getProp proof "claims" = .ok claims ∧ getProp proof "timestamp" = .ok ts ∧
        toPrimitive ts = .ok prim ∧
        (handleVerify host st parsed now).verificationResult =
          .obj [("valid", v), ("claims", claims),
            ("timestamp", .str (host.dateToLocaleString prim))]) ∧
    (∀ parsed, shownValid (handleVerify host st parsed now) = false →
      claimsShown (handleVerify host st parsed now) = false) := by
  have h4 : ∀ proof v claims ts prim, verifyProof host proof now = .ok v →
      getProp proof "claims" = .ok claims → getProp proof "timestamp" = .ok ts →
      toPrimitive ts = .ok prim →
      (handleVerify host st (.ok proof) now).verificationResult =
        .obj [("valid", v), ("claims", claims),
          ("timestamp", .str (host.dateToLocaleString prim))] := by
    intro proof v claims ts prim hv hcl hts hp
    rw [handleVerify_result]
    simp [verifyAttempt, hv, hcl, hts, hp, bind, Except.bind, pure, Except.pure]
  have hclaims : ∀ proof v e, verifyProof host proof now = .ok v →
      getProp proof "claims" = .error e →
      (handleVerify host st (.ok proof) now).verificationResult = errorResult := by
    intro proof v e hv hcl
    rw [handleVerify_result]
    simp [verifyAttempt, hv, hcl, bind, Except.bind]
  have hstamp : ∀ proof v claims e, verifyProof host proof now = .ok v →
      getProp proof "claims" = .ok claims → getProp proof "timestamp" = .error e →
      (handleVerify host st (.ok proof) now).verificationResult = errorResult := by
    intro proof v claims e hv hcl hts
    rw [handleVerify_result]
    simp [verifyAttempt, hv, hcl, hts, bind, Except.bind]
  have hprim : ∀ proof v claims ts e, verifyProof host proof now = .ok v →
      getProp proof "claims" = .ok claims → getProp proof "timestamp" = .ok ts →
      toPrimitive ts = .error e →
      (handleVerify host st (.ok proof) now).verificationResult = errorResult := by
    intro proof v claims ts e hv hcl hts hp
    rw [handleVerify_result]
    simp [verifyAttempt, hv, hcl, hts, hp, bind, Except.bind]
  refine ⟨⟨_, rfl, rfl⟩, fun e => rfl, ?_, hclaims, hstamp, hprim, h4, ?_, ?_, ?_, ?_, ?_⟩
  · intro proof e h
    exact verifyProof_error_result host st proof now e h
  · intro p
    have hv : verifyProof host p.toJS now =
        .ok (.bool (decide (p.commitment ≠ "") && decide (now - p.issuedAt ≤ ttl) &&
          (p.hasValidID && p.ageOver18 && p.hasPaymentMethod))) := by
      rw [verifyProof_toJS]
      by_cases h1 : p.commitment = ""
      · simp [h1]
      · by_cases h2 : now - p.issuedAt ≤ ttl
        · have h3 : ¬ (now - p.issuedAt > 5 * 60 * 1000) := by
            simp only [ttl] at h2; omega
          rw [if_neg (by rintro (h | h); exact h1 h; exact h3 h)]
          simp [h1, h2]
        · have h3 : now - p.issuedAt > 5 * 60 * 1000 := by
            simp only [ttl] at h2; omega
          rw [if_pos (Or.inr h3)]
          simp [h1, h2]
    exact h4 p.toJS _ _ _ _ hv rfl rfl rfl
  · exact hclaims .null (.bool false) .typeError rfl rfl
  · exact hprim _ (.bool false) _ _ .typeError rfl rfl rfl rfl
  · intro parsed
    rw [handleVerify_result]
    cases hva : verifyAttempt host parsed now with
    | error e => left; rfl
    | ok r =>
      right
      obtain ⟨proof, v, claims, ts, prim, hp, hv, hcl, hts, hpr, hr⟩ :=
        verifyAttempt_ok _ _ _ _ hva
      exact ⟨proof, v, claims, ts, prim, hp, hv, hcl, hts, hpr, hr⟩
  · intro parsed h
    unfold shownValid at h
    unfold claimsShown
    cases hg : getProp (handleVerify host st parsed now).verificationResult "valid" with
    | error e => rfl
    | ok v =>
      rw [hg] at h
      simp only at h
      simp [h]

/-- Instance of the amended C7 at a value that has claims but no commitment: it is
rejected and its claims are stored. -/
theorem handleVerify_result_claims_witness :
    (handleVerify integerHost State.init
      (.ok (.obj [("claims", .obj [("hasValidID", .bool true)])])) 1000).verificationResult =
      .obj [("valid", .bool false), ("claims", .obj [("hasValidID", .bool true)]),
        ("timestamp", .str (integerHost.dateToLocaleString .undefined))] :=
  (handleVerify_result_claims integerHost State.init 1000).2.2.2.2.2.2.1
    (.obj [("claims", .obj [("hasValidID", .bool true)])]) (.bool false)
    (.obj [("hasValidID", .bool true)]) .undefined .undefined rfl rfl rfl rfl

/-! ## Generation (C8, C9, C10) -/

/-- C8, counterexample: with name `Asha`, identifier fragment `1234` and the negative age
`-5` (as a number, and as the text `-5` a number input holds) `handleGenerateProof` stores
a generated proof. -/
theorem negative_age_generates_proof :
    (handleGenerateProof integerHost
      { State.init with userData := .obj [("name", .str "Asha"), ("age", .num (.int (-5))),
          ("aadharLast4", .str "1234"), ("hasCard", .bool true)] } 1000 1000).map
      (fun s => s.generatedProof) =
      .ok (.obj [
        ("commitment", .str
          "eyJuYW1lIjoiQXNoYSIsImFnZSI6LTUsImFhZGhhckxhc3Q0IjoiMTIzNCIsImhhc0NhcmQiOnRydWV9MTAwMA=="),
        ("timestamp", .num (.int 1000)),
        ("claims", .obj [("hasValidID", .bool true), ("ageOver18", .bool false),
          ("hasPaymentMethod", .bool true), ("nationality", .str "VERIFIED")])]) ∧
    (handleGenerateProof integerHost
      { State.init with userData := .obj [("name", .str "Asha"), ("age", .str "-5"),
          ("aadharLast4", .str "1234"), ("hasCard", .bool true)] } 1000 1000).map
      (fun s => s.generatedProof) =
      .ok (.obj [
        ("commitment", .str
          "eyJuYW1lIjoiQXNoYSIsImFnZSI6Ii01IiwiYWFkaGFyTGFzdDQiOiIxMjM0IiwiaGFzQ2FyZCI6dHJ1ZX0xMDAw"),
        ("timestamp", .num (.int 1000)),
        ("claims", .obj [("hasValidID", .bool true), ("ageOver18", .bool false),
          ("hasPaymentMethod", .bool true), ("nationality", .str "VERIFIED")])]) := by
  constructor <;> rfl

/-- C8, amended: when the name is empty, the age is missing (absent, empty, `0` or `NaN`:
any falsy value) or the identifier fragment is empty, `handleGenerateProof` shows the alert
and returns without an exception; `generatedProof` and `qrData` keep their values.  The
guard tests presence only, a negative age passes it. -/
theorem handleGenerateProof_unfilled (host : Host) (st : State)
    (fs : List (String × JSVal)) (tCommit tStamp : Int) (hud : st.userData = .obj fs)
    (hempty : truthy ((lookupField "name" fs).getD .undefined) = false ∨
      truthy ((lookupField "age" fs).getD .undefined) = false ∨
      truthy ((lookupField "aadharLast4" fs).getD .undefined) = false) :
    handleGenerateProof host st tCommit tStamp =
      .ok { st with alerts := st.alerts ++ ["Please fill all fields"] } ∧
    (handleGenerateProof host st tCommit tStamp).map (fun s => (s.generatedProof, s.qrData)) =
      .ok (st.generatedProof, st.qrData) := by
  have h : handleGenerateProof host st tCommit tStamp =
      .ok { st with alerts := st.alerts ++ ["Please fill all fields"] } := by
    unfold handleGenerateProof
    rw [hud]
    simp only [getProp, bind, Except.bind, pure, Except.pure]
    cases h1 : truthy ((lookupField "name" fs).getD .undefined) with
    | false => simp
    | true =>
      cases h2 : truthy ((lookupField "age" fs).getD .undefined) with
      | false => simp
      | true =>
        cases h3 : truthy ((lookupField "aadharLast4" fs).getD .undefined) with
        | false => simp
        | true => simp [h1, h2, h3] at hempty
  exact ⟨h, by rw [h]; rfl⟩

/-- Instance of the amended C8 at the initial form state, where every field is empty. -/
theorem handleGenerateProof_unfilled_witness :
    handleGenerateProof integerHost State.init 1000 1000 =
      .ok { State.init with alerts := State.init.alerts ++ ["Please fill all fields"] } ∧
    (handleGenerateProof integerHost State.init 1000 1000).map
        (fun s => (s.generatedProof, s.qrData)) =
      .ok (State.init.generatedProof, State.init.qrData) :=
  handleGenerateProof_unfilled integerHost State.init
    [("name", .str ""), ("age", .str ""), ("aadharLast4", .str ""), ("hasCard", .bool false)]
    1000 1000 rfl (Or.inl rfl)

/-- C9, at the failing input: for the form state with the name `आशा`, age `25` and
identifier fragment `1234`, which satisfies the input constraints, `btoa` rejects the
serialized record, `generateZKProof` throws `InvalidCharacterError` at every instant, and
the exception leaves `handleGenerateProof`. -/
theorem generateZKProof_non_latin1_name_throws (host : Host) (tCommit tStamp : Int) :
    generateZKProof host
      (.obj [("name", .str "आशा"), ("age", .str "25"), ("aadharLast4", .str "1234"),
        ("hasCard", .bool true)]) tCommit tStamp = .error .invalidCharacter ∧
    handleGenerateProof host
      { State.init with userData := .obj [("name", .str "आशा"), ("age", .str "25"),
          ("aadharLast4", .str "1234"), ("hasCard", .bool true)] } tCommit tStamp =
      .error .invalidCharacter := by
  have hb : btoa (commitmentInput
      (.obj [("name", .str "आशा"), ("age", .str "25"), ("aadharLast4", .str "1234"),
        ("hasCard", .bool true)]) tCommit) = .error .invalidCharacter := by
    have hs : (jsonStringify (.obj [("name", .str "आशा"), ("age", .str "25"),
        ("aadharLast4", .str "1234"), ("hasCard", .bool true)])).map latin1 = some false := by
      rfl
    unfold commitmentInput
    cases hj : jsonStringify (.obj [("name", .str "आशा"), ("age", .str "25"),
        ("aadharLast4", .str "1234"), ("hasCard", .bool true)]) with
    | none => rw [hj] at hs; cases hs
    | some s =>
      rw [hj] at hs
      simp only [Option.map] at hs
      injection hs with hs
      exact btoa_append_error _ _ hs
  have hg : generateZKProof host
      (.obj [("name", .str "आशा"), ("age", .str "25"), ("aadharLast4", .str "1234"),
        ("hasCard", .bool true)]) tCommit tStamp = .error .invalidCharacter := by
    unfold generateZKProof
    rw [hb]
    rfl
  refine ⟨hg, ?_⟩
  unfold handleGenerateProof
  simp only [State.init, hg]
  rfl

/-- C10: when `generateZKProof` returns a proof for the same record at two different
generation instants, the two commitments are different strings: `btoa` is injective and so
is the decimal rendering of the instant appended to the serialized record. -/
theorem generateZKProof_commitment_fresh (host : Host) (userData : JSVal)
    (t1 t2 s1 s2 : Int) (p1 p2 : JSVal)
    (h1 : generateZKProof host userData t1 s1 = .ok p1)
    (h2 : generateZKProof host userData t2 s2 = .ok p2) (hne : t1 ≠ t2) :
    ∃ c1 c2, getProp p1 "commitment" = .ok (.str c1) ∧
      getProp p2 "commitment" = .ok (.str c2) ∧ c1 ≠ c2 := by
  obtain ⟨c1, s, hs, hb1, hc1, -⟩ := generateZKProof_ok host userData p1 t1 s1 h1
  obtain ⟨c2, s', hs', hb2, hc2, -⟩ := generateZKProof_ok host userData p2 t2 s2 h2
  rw [hs] at hs'
  injection hs' with hs'
  subst hs'
  refine ⟨c1, c2, hc1, hc2, ?_⟩
  intro hc
  subst hc
  have happ := btoa_injective _ _ _ hb1 hb2
  have hd := congrArg String.data happ
  rw [String.data_append, String.data_append] at hd
  have := List.append_cancel_left hd
  exact hne (intToString_injective t1 t2 (String.ext this))

/-- Instance of C10: the record `Asha, 25, 1234, true` generated at 1000 and at 1001. -/
theorem generateZKProof_commitment_fresh_witness :
    ∃ c1 c2,
      getProp (Proof.toJS ⟨
        "eyJuYW1lIjoiQXNoYSIsImFnZSI6MjUsImFhZGhhckxhc3Q0IjoiMTIzNCIsImhhc0NhcmQiOnRydWV9MTAwMA==",
        1000, true, true, true, .str "VERIFIED"⟩) "commitment" = .ok (.str c1) ∧
      getProp (Proof.toJS ⟨
        "eyJuYW1lIjoiQXNoYSIsImFnZSI6MjUsImFhZGhhckxhc3Q0IjoiMTIzNCIsImhhc0NhcmQiOnRydWV9MTAwMQ==",
        1001, true, true, true, .str "VERIFIED"⟩) "commitment" = .ok (.str c2) ∧
      c1 ≠ c2 :=
  generateZKProof_commitment_fresh integerHost
    (AttributeRecord.toJS ⟨"Asha", 25, "1234", true⟩) 1000 1001 1000 1001
    (Proof.toJS ⟨
      "eyJuYW1lIjoiQXNoYSIsImFnZSI6MjUsImFhZGhhckxhc3Q0IjoiMTIzNCIsImhhc0NhcmQiOnRydWV9MTAwMA==",
      1000, true, true, true, .str "VERIFIED"⟩)
    (Proof.toJS ⟨
      "eyJuYW1lIjoiQXNoYSIsImFnZSI6MjUsImFhZGhhckxhc3Q0IjoiMTIzNCIsImhhc0NhcmQiOnRydWV9MTAwMQ==",
      1001, true, true, true, .str "VERIFIED"⟩)
    rfl rfl (by decide)

end ZKCheckin
